import Mathlib

/-!
Verification development for the blog-refresh pipeline.

The definitions below are a shallow embedding of the pipeline code:

* `src/backend/helpers/linkChecker.js` — link evaluation with special handling
  for document/cloud URLs (namespace `LinkChecker`);
* `src/backend/helpers/aiAnalyzer.js` — structure analysis, proposal
  generation and change application (namespace `Helpers`);
* the sibling implementation of the same analyzer interface found in the
  repository (the file wired behind `backend/src/controllers/blogController.js`,
  here called the `Part000` variant), whose structure-analysis validation and
  proposal generation differ in places from the `Helpers` variant.

Network requests (axios HEAD/GET) and the generative-model call are external
effects; they are modelled as explicit inputs: a `Transport` record holding the
outcome of the (at most two) probes a link check may perform, and the reply
text of the model together with a `parse` oracle standing for `JSON.parse`
(which, on a text that starts with `{` and ends with `}`, either fails or
returns a JSON object, here a list of key/value pairs).
-/

namespace BlogRefresh

/-! ## Link checker (src/backend/helpers/linkChecker.js) -/

/-- A hyperlink record extracted from the blog HTML. -/
structure Link where
  id : String
  url : String
  text : String
  context : String
  deriving DecidableEq, Repr

/-- The result record produced for one link: the spread `...link` fields plus
`status`, `working`, `issue` and the `method` tag of the strategy that
resolved the link. -/
structure LinkEvaluation where
  id : String
  url : String
  text : String
  context : String
  status : Nat
  working : Bool
  issue : Option String
  method : String
  deriving DecidableEq, Repr

/-- Outcome of one axios probe: either an HTTP status (every status is
accepted by the code since `validateStatus: () => true`), or a thrown
network error carrying its `error.code`. -/
inductive ProbeOutcome where
  | status (code : Nat)
  | netError (code : String)
  deriving DecidableEq, Repr

/-- The transport environment for checking one link: the outcome of the
HEAD probe and, in case the code falls back, the outcome of the GET probe. -/
structure Transport where
  head : ProbeOutcome
  get : ProbeOutcome
  deriving DecidableEq, Repr

/-- `isNetworkError` (linkChecker.js, lines 277-285): error codes worth
retrying with a GET fallback. -/
def isNetworkError (code : String) : Bool :=
  code = "ECONNREFUSED" || code = "ECONNRESET" || code = "ETIMEDOUT" ||
    code = "ECONNABORTED"

/-- `getIssueMessage` (linkChecker.js, lines 288-303). -/
def getIssueMessage (status : Nat) : String :=
  if status = 400 then "Bad request"
  else if status = 401 then "Authentication required"
  else if status = 403 then "Access forbidden"
  else if status = 404 then "Page not found"
  else if status = 408 then "Request timeout"
  else if status = 410 then "Page permanently removed"
  else if status = 429 then "Too many requests (rate limited)"
  else if status = 500 then "Server error"
  else if status = 502 then "Bad gateway"
  else if status = 503 then "Service unavailable"
  else if status = 504 then "Gateway timeout"
  else "HTTP error (status " ++ toString status ++ ")"

/-- `getErrorMessage` (linkChecker.js, lines 306-318).  The JS fallback line
interpolates `error.code || error.message`; the model carries only the code. -/
def getErrorMessage (code : String) : String :=
  if code = "ENOTFOUND" then "Domain not found - URL may be invalid or site is down"
  else if code = "ECONNREFUSED" then "Connection refused by server"
  else if code = "ECONNRESET" then "Connection was reset"
  else if code = "ETIMEDOUT" then "Request timed out"
  else if code = "ECONNABORTED" then "Connection was aborted"
  else if code = "ERR_TLS_CERT" then "SSL certificate error"
  else if code = "DEPTH_ZERO_SELF_SIGNED_CERT" then "Self-signed SSL certificate"
  else if code = "CERT_HAS_EXPIRED" then "SSL certificate has expired"
  else "Connection failed (" ++ code ++ ")"

/-- ASCII lower-casing, modelling the case-insensitive (`/i`) regex flags. -/
def lowerAscii (c : Char) : Char :=
  if 'A' ≤ c ∧ c ≤ 'Z' then Char.ofNat (c.toNat + 32) else c

/-- The characters of a URL, lower-cased for a case-insensitive match. -/
def lowerChars (s : String) : List Char :=
  s.data.map lowerAscii

/-- Whether `pat` occurs somewhere in `s` (an unanchored regex match of a
literal pattern). -/
def hasInfix (pat : List Char) : List Char → Bool
  | [] => pat.isEmpty
  | c :: rest => pat.isPrefixOf (c :: rest) || hasInfix pat rest

/-- The remainder of `s` after the first occurrence of `pat`, if any. -/
def afterFirst (pat : List Char) : List Char → Option (List Char)
  | [] => if pat.isEmpty then some [] else none
  | c :: rest =>
    if pat.isPrefixOf (c :: rest) then some ((c :: rest).drop pat.length)
    else afterFirst pat rest

/-- An unanchored match of `host` followed (anywhere later) by one of the
literal `exts` — the shape of the regexes `host.*\.(ext1|ext2|...)`. -/
def hostThenExt (host : List Char) (exts : List (List Char)) (s : List Char) : Bool :=
  match afterFirst host s with
  | some rest => exts.any (fun e => hasInfix e rest)
  | none => false

/-- `isSpecialUrl` (linkChecker.js, lines 29-42): the eight special URL
patterns, all matched case-insensitively. -/
def isSpecialUrl (url : String) : Bool :=
  let l := lowerChars url
  List.isSuffixOf ".pdf".data l ||
  hasInfix "drive.google.com".data l ||
  hasInfix "docs.google.com".data l ||
  hostThenExt "dropbox.com".data
    [".pdf".data, ".doc".data, ".docx".data, ".ppt".data, ".pptx".data] l ||
  hasInfix "onedrive.live.com".data l ||
  hasInfix "sharepoint.com".data l ||
  hostThenExt ".amazonaws.com".data [".pdf".data, ".doc".data, ".docx".data] l ||
  hostThenExt "github.com".data [".pdf".data, ".md".data, ".txt".data] l

/-- `isGoogleService` (linkChecker.js, lines 119-121): `/google\.com/i`. -/
def isGoogleService (url : String) : Bool :=
  hasInfix "google.com".data (lowerChars url)

/-- Build a `LinkEvaluation` from the spread `...link` plus the four result
fields, as every return site of the checker does. -/
def mkEval (l : Link) (status : Nat) (working : Bool) (issue : Option String)
    (method : String) : LinkEvaluation :=
  { id := l.id, url := l.url, text := l.text, context := l.context,
    status := status, working := working, issue := issue, method := method }

/-- `fallbackToGet` (linkChecker.js, lines 229-274): the standard GET
fallback.  A 416 is normalized to a working 200; a thrown error yields a
status-0 failure.  Every branch tags `method: GET`. -/
def fallbackToGet (outcome : ProbeOutcome) (link : Link) : LinkEvaluation :=
  match outcome with
  | .status s =>
    if (200 ≤ s ∧ s < 400) ∨ s = 416 then
      mkEval link (if s = 416 then 200 else s) true none "GET"
    else
      mkEval link s false (some (getIssueMessage s)) "GET"
  | .netError c => mkEval link 0 false (some (getErrorMessage c)) "GET"

/-- `checkStandardUrl` (linkChecker.js, lines 177-226): HEAD probe; 2xx/3xx
is working, 405/403/401 escalates to the GET fallback, other statuses fail
with an issue message; a retriable network error also escalates, any other
thrown error fails with status 0. -/
def checkStandardUrl (t : Transport) (link : Link) : LinkEvaluation :=
  match t.head with
  | .status s =>
    if 200 ≤ s ∧ s < 400 then
      mkEval link s true none "HEAD"
    else if s = 405 ∨ s = 403 ∨ s = 401 then
      fallbackToGet t.get link
    else
      mkEval link s false (some (getIssueMessage s)) "HEAD"
  | .netError c =>
    if isNetworkError c then fallbackToGet t.get link
    else mkEval link 0 false (some (getErrorMessage c)) "HEAD"

/-- `fallbackToGetSpecial` (linkChecker.js, lines 124-174): the special GET
fallback, accepting 403/401 for Google services and 416 everywhere, all
normalized to a working 200 (403/401 with the private-file issue). -/
def fallbackToGetSpecial (outcome : ProbeOutcome) (link : Link) : LinkEvaluation :=
  match outcome with
  | .status s =>
    if (200 ≤ s ∧ s < 400) ∨ (isGoogleService link.url = true ∧ (s = 403 ∨ s = 401)) ∨
        s = 416 then
      mkEval link (if s = 403 ∨ s = 401 ∨ s = 416 then 200 else s) true
        (if s = 403 ∨ s = 401 then some "Private file (access restricted)" else none)
        "GET-SPECIAL"
    else
      mkEval link s false (some (getIssueMessage s)) "GET-SPECIAL"
  | .netError c => mkEval link 0 false (some (getErrorMessage c)) "GET-SPECIAL"

/-- `checkSpecialUrl` (linkChecker.js, lines 45-104): HEAD probe with 2xx/3xx
working, a Google 403 normalized to a working 200 (private file), a 405 or a
non-Google 403 escalating to the special GET fallback, other statuses
failing; retriable network errors escalate, others fail with status 0.
The Google-Drive URL canonicalization (`convertGoogleDriveUrl`) only rewrites
the URL handed to the transport, which the `Transport` record abstracts, so
it does not appear in the model. -/
def checkSpecialUrl (t : Transport) (link : Link) : LinkEvaluation :=
  match t.head with
  | .status s =>
    if (200 ≤ s ∧ s < 400) ∨ (isGoogleService link.url = true ∧ s = 403) then
      mkEval link (if s = 403 then 200 else s) true
        (if s = 403 then some "Private file (access restricted)" else none)
        "HEAD-SPECIAL"
    else if s = 405 ∨ s = 403 then
      fallbackToGetSpecial t.get link
    else
      mkEval link s false (some (getIssueMessage s)) "HEAD-SPECIAL"
  | .netError c =>
    if isNetworkError c then fallbackToGetSpecial t.get link
    else mkEval link 0 false (some (getErrorMessage c)) "HEAD-SPECIAL"

/-- `checkLink` (linkChecker.js, lines 18-26): dispatch on the URL class. -/
def checkLink (t : Transport) (link : Link) : LinkEvaluation :=
  if isSpecialUrl link.url = true then checkSpecialUrl t link
  else checkStandardUrl t link

/-- `evaluateLinks` (linkChecker.js, lines 4-16): truncate to the first 20
links and check each in order.  The transport environment is a function of
the link, standing for the fixed per-URL responses of the network. -/
def evaluateLinks (t : Link → Transport) (links : List Link) : List LinkEvaluation :=
  (links.take 20).map (fun l => checkLink (t l) l)

/-- Every branch of every checking strategy spreads `...link`, so the four
identifying fields of the input link survive into its evaluation. -/
theorem checkLink_preserves_fields (t : Transport) (link : Link) :
    (checkLink t link).id = link.id ∧ (checkLink t link).url = link.url ∧
    (checkLink t link).text = link.text ∧ (checkLink t link).context = link.context := by
  unfold checkLink checkSpecialUrl checkStandardUrl fallbackToGetSpecial fallbackToGet mkEval
  rcases t with ⟨h, g⟩
  cases h <;> cases g <;> dsimp only <;>
    repeat first
    | split
    | exact ⟨rfl, rfl, rfl, rfl⟩

/-- C4.  `evaluateLinks` returns `min (length links) 20` evaluations — so
exactly 20 for more than 20 input links, and one per link otherwise — and the
`i`-th evaluation is the check of the `i`-th input link (whose identifying
fields it preserves), in input order. -/
theorem c4_cap_and_order (t : Link → Transport) (links : List Link) :
    (evaluateLinks t links).length = min links.length 20 ∧
    ∀ i : Nat, ∀ h1 : i < (evaluateLinks t links).length, ∀ h2 : i < links.length,
      (evaluateLinks t links).get ⟨i, h1⟩ =
        checkLink (t (links.get ⟨i, h2⟩)) (links.get ⟨i, h2⟩) ∧
      ((evaluateLinks t links).get ⟨i, h1⟩).url = (links.get ⟨i, h2⟩).url ∧
      ((evaluateLinks t links).get ⟨i, h1⟩).id = (links.get ⟨i, h2⟩).id := by
  constructor
  · simp [evaluateLinks, Nat.min_comm]
  · intro i h1 h2
    have hi : i < (links.take 20).length := by
      simpa [evaluateLinks] using h1
    have hget : (evaluateLinks t links).get ⟨i, h1⟩ =
        checkLink (t (links.get ⟨i, h2⟩)) (links.get ⟨i, h2⟩) := by
      simp [evaluateLinks, List.get_eq_getElem, List.getElem_map, List.getElem_take]
    refine ⟨hget, ?_, ?_⟩
    · rw [hget]
      exact (checkLink_preserves_fields _ _).2.1
    · rw [hget]
      exact (checkLink_preserves_fields _ _).1

/-- C4 witness: on a concrete list of 25 links the evaluator returns exactly
20 results and the 5th result is the check of the 5th link. -/
theorem c4_cap_and_order_witness :
    (evaluateLinks (fun _ => ⟨ProbeOutcome.status 200, ProbeOutcome.status 200⟩)
        (List.replicate 25 ⟨"a", "https://example.com", "", ""⟩)).length = min 25 20 ∧
    (evaluateLinks (fun _ => ⟨ProbeOutcome.status 200, ProbeOutcome.status 200⟩)
        (List.replicate 25 ⟨"a", "https://example.com", "", ""⟩)).get
        ⟨5, by rw [(c4_cap_and_order _ _).1]; decide⟩ =
      checkLink ⟨ProbeOutcome.status 200, ProbeOutcome.status 200⟩
        ⟨"a", "https://example.com", "", ""⟩ := by
  have h := c4_cap_and_order
    (fun _ => ⟨ProbeOutcome.status 200, ProbeOutcome.status 200⟩)
    (List.replicate 25 ⟨"a", "https://example.com", "", ""⟩)
  refine ⟨by rw [h.1]; decide, ?_⟩
  have h5 := (h.2 5 (by rw [h.1]; decide) (by decide)).1
  rw [h5]
  decide

/-- C5.  For an ordinary (non-special) link whose HEAD probe came back with
status 405, 403 or 401, the evaluation's `method` is `GET` — the escalated
fallback tags every one of its branches (success, error status, thrown
error) with `GET`, never `HEAD`. -/
theorem c5_escalation_method (t : Transport) (link : Link) (s : Nat)
    (hspec : isSpecialUrl link.url = false)
    (hhead : t.head = ProbeOutcome.status s)
    (hs : s = 405 ∨ s = 403 ∨ s = 401) :
    (checkLink t link).method = "GET" := by
  have hstd : checkLink t link = checkStandardUrl t link := by
    unfold checkLink
    simp [hspec]
  rw [hstd]
  unfold checkStandardUrl
  rw [hhead]
  dsimp only
  have hrange : ¬ (200 ≤ s ∧ s < 400) := by omega
  rw [if_neg hrange, if_pos hs]
  unfold fallbackToGet
  cases t.get with
  | status g =>
    dsimp only
    split <;> rfl
  | netError c => rfl

/-- C5 witness: a concrete ordinary link whose HEAD probe returns 403 (and
whose GET fallback then throws) is reported with method `GET`. -/
theorem c5_escalation_method_witness :
    (checkLink ⟨ProbeOutcome.status 403, ProbeOutcome.netError "ENOTFOUND"⟩
      ⟨"l1", "https://example.com", "t", ""⟩).method = "GET" :=
  c5_escalation_method _ _ 403 (by decide) rfl (Or.inr (Or.inl rfl))

/-- C10.  Whatever strategy resolves a link (`HEAD`, `GET`, `HEAD-SPECIAL`
or `GET-SPECIAL`), an evaluation with `working = true` always carries a
status in `[200, 400)`: failing probes keep `working = false`, and the
accepted out-of-range statuses (403/401/416 on special URLs, 416 on the
standard GET fallback) are normalized to 200 before being reported. -/
theorem c10_working_status_range (t : Transport) (link : Link)
    (hw : (checkLink t link).working = true) :
    200 ≤ (checkLink t link).status ∧ (checkLink t link).status < 400 := by
  have hget : ∀ o : ProbeOutcome, (fallbackToGet o link).working = true →
      200 ≤ (fallbackToGet o link).status ∧ (fallbackToGet o link).status < 400 := by
    intro o
    cases o with
    | status s =>
      dsimp only [fallbackToGet, mkEval]
      split_ifs with h1 h2 <;> intro hw2 <;> dsimp only at hw2 ⊢
      all_goals omega
    | netError c =>
      intro hw2
      dsimp only [fallbackToGet, mkEval] at hw2
      exact absurd hw2 (by decide)
  have hgets : ∀ o : ProbeOutcome, (fallbackToGetSpecial o link).working = true →
      200 ≤ (fallbackToGetSpecial o link).status ∧ (fallbackToGetSpecial o link).status < 400 := by
    intro o
    cases o with
    | status s =>
      dsimp only [fallbackToGetSpecial, mkEval]
      split_ifs with h1 h2 <;> intro hw2 <;> dsimp only at hw2 ⊢
      all_goals omega
    | netError c =>
      intro hw2
      dsimp only [fallbackToGetSpecial, mkEval] at hw2
      exact absurd hw2 (by decide)
  rcases t with ⟨hd, gt⟩
  by_cases hsp : isSpecialUrl link.url = true
  · have hce : checkLink ⟨hd, gt⟩ link = checkSpecialUrl ⟨hd, gt⟩ link := by
      unfold checkLink
      rw [if_pos hsp]
    rw [hce] at hw ⊢
    cases hd with
    | status s =>
      unfold checkSpecialUrl at hw ⊢
      dsimp only [mkEval] at hw ⊢
      split_ifs at hw ⊢ with h1 h2 h3
      all_goals try exact hgets gt hw
      all_goals dsimp only
      all_goals omega
    | netError c =>
      unfold checkSpecialUrl at hw ⊢
      dsimp only [mkEval] at hw ⊢
      split_ifs at hw ⊢ with h1
      all_goals exact hgets gt hw
  · have hce : checkLink ⟨hd, gt⟩ link = checkStandardUrl ⟨hd, gt⟩ link := by
      unfold checkLink
      rw [if_neg hsp]
    rw [hce] at hw ⊢
    cases hd with
    | status s =>
      unfold checkStandardUrl at hw ⊢
      dsimp only [mkEval] at hw ⊢
      split_ifs at hw ⊢ with h1 h2
      all_goals try exact hget gt hw
      all_goals dsimp only
      all_goals omega
    | netError c =>
      unfold checkStandardUrl at hw ⊢
      dsimp only [mkEval] at hw ⊢
      split_ifs at hw ⊢ with h1
      all_goals exact hget gt hw

/-- C10 witness: a concrete working evaluation (HEAD 200) has its status in
the required range. -/
theorem c10_working_status_range_witness :
    200 ≤ (checkLink ⟨ProbeOutcome.status 200, ProbeOutcome.status 200⟩
        ⟨"l1", "https://example.com", "t", ""⟩).status ∧
      (checkLink ⟨ProbeOutcome.status 200, ProbeOutcome.status 200⟩
        ⟨"l1", "https://example.com", "t", ""⟩).status < 400 :=
  c10_working_status_range _ _ (by decide)

/-- C1 counterexample.  The claim says every special link whose probe
returned 403, 401 or 416 is normalized to a working 200.  A special but
non-Google link (a plain `.pdf`) whose HEAD probe returns 401 refutes it:
`checkSpecialUrl` takes 401 neither into the accepting branch nor into the
GET fallback, and reports `status 401, working false`. -/
theorem c1_special_normalization_counterexample :
    isSpecialUrl "https://example.com/file.pdf" = true ∧
    (checkLink ⟨ProbeOutcome.status 401, ProbeOutcome.status 200⟩
      ⟨"l1", "https://example.com/file.pdf", "t", ""⟩).working = false ∧
    (checkLink ⟨ProbeOutcome.status 401, ProbeOutcome.status 200⟩
      ⟨"l1", "https://example.com/file.pdf", "t", ""⟩).status = 401 := by
  decide

/-- C1 amended.  The normalization the code actually performs on special
links: a HEAD 403 on a Google-service URL, and — once the GET fallback has
been triggered (by a HEAD 405, a non-Google HEAD 403, or a retriable network
error) — a fallback GET 416 on any special URL or a fallback GET 403/401 on
a Google-service URL, are all reported as `status` exactly 200 with
`working = true`. -/
theorem c1_special_normalization_amended :
    (∀ (t : Transport) (link : Link),
      isSpecialUrl link.url = true → isGoogleService link.url = true →
      t.head = ProbeOutcome.status 403 →
      (checkLink t link).status = 200 ∧ (checkLink t link).working = true) ∧
    (∀ (t : Transport) (link : Link) (g : Nat),
      isSpecialUrl link.url = true →
      ((∃ s, t.head = ProbeOutcome.status s ∧
          (s = 405 ∨ (s = 403 ∧ isGoogleService link.url = false))) ∨
        (∃ c, t.head = ProbeOutcome.netError c ∧ isNetworkError c = true)) →
      t.get = ProbeOutcome.status g →
      (g = 416 ∨ (isGoogleService link.url = true ∧ (g = 403 ∨ g = 401))) →
      (checkLink t link).status = 200 ∧ (checkLink t link).working = true) := by
  constructor
  · intro t link hsp hg hhead
    have hce : checkLink t link = checkSpecialUrl t link := by
      unfold checkLink
      rw [if_pos hsp]
    rw [hce]
    unfold checkSpecialUrl
    rw [hhead]
    dsimp only
    rw [if_pos (Or.inr ⟨hg, rfl⟩)]
    dsimp only [mkEval]
    exact ⟨by norm_num, rfl⟩
  · intro t link g hsp htrig hget hg46
    have hce : checkLink t link = checkSpecialUrl t link := by
      unfold checkLink
      rw [if_pos hsp]
    have hfb : (fallbackToGetSpecial (ProbeOutcome.status g) link).status = 200 ∧
        (fallbackToGetSpecial (ProbeOutcome.status g) link).working = true := by
      unfold fallbackToGetSpecial
      dsimp only
      have hcond : (200 ≤ g ∧ g < 400) ∨
          (isGoogleService link.url = true ∧ (g = 403 ∨ g = 401)) ∨ g = 416 := by
        rcases hg46 with h | ⟨hgo, h⟩
        · exact Or.inr (Or.inr h)
        · exact Or.inr (Or.inl ⟨hgo, h⟩)
      rw [if_pos hcond]
      have hnorm : g = 403 ∨ g = 401 ∨ g = 416 := by
        rcases hg46 with h | ⟨hgo, h⟩ <;> omega
      rw [if_pos hnorm]
      exact ⟨rfl, rfl⟩
    rw [hce]
    unfold checkSpecialUrl
    rcases htrig with ⟨s, hh, hs⟩ | ⟨c, hh, hc⟩
    · rw [hh]
      dsimp only
      have hnot1 : ¬ ((200 ≤ s ∧ s < 400) ∨ (isGoogleService link.url = true ∧ s = 403)) := by
        rcases hs with h | ⟨h, hng⟩
        · omega
        · rintro (hr | ⟨hgo, rfl⟩)
          · omega
          · rw [hng] at hgo
            exact absurd hgo (by decide)
      rw [if_neg hnot1]
      have h45 : s = 405 ∨ s = 403 := by
        rcases hs with h | ⟨h, hng⟩ <;> omega
      rw [if_pos h45, hget]
      exact hfb
    · rw [hh]
      dsimp only
      rw [if_pos hc, hget]
      exact hfb

/-- C1 amended witness: a private Google-Drive file (HEAD 403) and a plain
PDF whose fallback GET answers 416 (after a HEAD 405) are both normalized to
a working 200. -/
theorem c1_special_normalization_amended_witness :
    ((checkLink ⟨ProbeOutcome.status 403, ProbeOutcome.netError "X"⟩
        ⟨"l1", "https://drive.google.com/file/d/abc/view", "t", ""⟩).status = 200 ∧
      (checkLink ⟨ProbeOutcome.status 403, ProbeOutcome.netError "X"⟩
        ⟨"l1", "https://drive.google.com/file/d/abc/view", "t", ""⟩).working = true) ∧
    ((checkLink ⟨ProbeOutcome.status 405, ProbeOutcome.status 416⟩
        ⟨"l2", "https://example.com/file.pdf", "t", ""⟩).status = 200 ∧
      (checkLink ⟨ProbeOutcome.status 405, ProbeOutcome.status 416⟩
        ⟨"l2", "https://example.com/file.pdf", "t", ""⟩).working = true) := by
  constructor
  · exact c1_special_normalization_amended.1 _ _ (by decide) (by decide) rfl
  · exact c1_special_normalization_amended.2 _ _ 416 (by decide)
      (Or.inl ⟨405, rfl, Or.inl rfl⟩) rfl (Or.inl rfl)

/-! ## JavaScript string helpers shared by the analyzer models

The analyzer post-processes model replies with chained
`.replace(/^```word\s*/i, '').replace(/^```\s*/i, '').replace(/\s*```$/, '')
.trim()` calls.  These are modelled below on `List Char`.  `\s` is modelled
by the ASCII whitespace characters (the Unicode space classes JS also
accepts do not occur in the inputs of interest). -/

/-- The backtick character (written by code point to keep it out of the
source text). -/
def btick : Char := Char.ofNat 96

/-- A three-backtick code-fence marker. -/
def fence : List Char := [btick, btick, btick]

/-- ASCII approximation of the JS `\s` class / `String.prototype.trim`. -/
def jsWs (c : Char) : Bool :=
  c = ' ' || c = '\t' || c = '\n' || c = '\r' || c = '\x0b' || c = '\x0c'

/-- Drop leading whitespace. -/
def dropLeadingWs (s : List Char) : List Char :=
  s.dropWhile jsWs

/-- Drop trailing whitespace. -/
def dropTrailingWs (s : List Char) : List Char :=
  (s.reverse.dropWhile jsWs).reverse

/-- `String.prototype.trim`. -/
def jsTrimL (s : List Char) : List Char :=
  dropTrailingWs (dropLeadingWs s)

/-- `.replace(/^```word\s*/i, '')`: if the string starts with the fence
followed by `word` (case-insensitively), remove them and any following
whitespace. -/
def stripWordFence (word : List Char) (s : List Char) : List Char :=
  let pat := fence ++ word
  if (s.take pat.length).map lowerAscii = pat then (s.drop pat.length).dropWhile jsWs
  else s

/-- `.replace(/^```\s*/i, '')`. -/
def stripPlainFence (s : List Char) : List Char :=
  if fence.isPrefixOf s then (s.drop 3).dropWhile jsWs else s

/-- `.replace(/\s*```$/, '')`: remove a fence at the very end of the string
together with the maximal whitespace run before it.  (With no `m` flag, `$`
anchors at the end of the whole string.) -/
def stripTrailFence (s : List Char) : List Char :=
  let r := s.reverse
  if fence.isPrefixOf r then ((r.drop 3).dropWhile jsWs).reverse else s

/-- The reply post-processing of `applyChanges` (aiAnalyzer.js, lines
220-224): strip a leading ```` ```html ```` fence, then a leading plain
```` ``` ```` fence, then a trailing fence, then trim. -/
def postprocessReply (s : String) : String :=
  String.mk (jsTrimL (stripTrailFence (stripPlainFence (stripWordFence "html".data s.data))))

/-- The reply cleaning of the sibling analyzer (part_000, lines 62-66):
same pipeline with ```` ```json ````. -/
def cleanText (s : String) : String :=
  String.mk (jsTrimL (stripTrailFence (stripPlainFence (stripWordFence "json".data s.data))))

/-! ## JSON values and JS object semantics -/

/-- A parsed JSON value.  Numbers are modelled as integers: the only numeric
fields the analyzer inspects are section indices, and no claim depends on
fractional values. -/
inductive Json where
  | null
  | bool (b : Bool)
  | num (n : Int)
  | str (s : String)
  | arr (elems : List Json)
  | obj (fields : List (String × Json))

/-- A parsed JSON object, as returned by `JSON.parse` on a text that starts
with a brace: its key/value pairs. -/
abbrev JsonObj := List (String × Json)

/-- Property read on an object; `none` stands for JS `undefined`. -/
def getField (o : JsonObj) (k : String) : Option Json :=
  match o with
  | [] => none
  | (k2, v) :: rest => if k2 = k then some v else getField rest k

/-- Property write on an object.  Prepending (and dropping the old pair)
gives the same observable behaviour under `getField` as the in-place JS
assignment. -/
def setField (o : JsonObj) (k : String) (v : Json) : JsonObj :=
  (k, v) :: o.filter (fun p => !(p.1 = k : Bool))

/-- The runtime errors the analyzer code can raise while inspecting a parsed
reply: a `TypeError` (property access on `undefined`/`null`, or calling a
method a value does not have) or the `SyntaxError` thrown by `JSON.parse`. -/
inductive JsError where
  | typeError
  | parseError
  deriving DecidableEq, Repr

/-- JS truthiness of a JSON value. -/
def jsTruthy (v : Json) : Bool :=
  match v with
  | Json.null => false
  | Json.bool b => b
  | Json.num n => !(n = 0 : Bool)
  | Json.str s => !(s = "" : Bool)
  | Json.arr _ => true
  | Json.obj _ => true

/-- JS `.length` of a value: defined for arrays and strings, `undefined`
(`none`) otherwise. -/
def jsLength (v : Json) : Option Nat :=
  match v with
  | Json.arr l => some l.length
  | Json.str s => some s.length
  | _ => none

/-- Property read on an arbitrary value: throws `TypeError` on `null`
(and the model's caller handles the `undefined` case), yields the field on
objects, and `undefined` on every other value. -/
def jsGetField (v : Json) (k : String) : Except JsError (Option Json) :=
  match v with
  | Json.null => Except.error JsError.typeError
  | Json.obj fields => Except.ok (getField fields k)
  | _ => Except.ok none

/-- Whether an optional value is exactly the string `w` (JS `=== 'w'`). -/
def isStrVal (v : Option Json) (w : String) : Bool :=
  match v with
  | some (Json.str s2) => s2 = w
  | _ => false

/-- `Array.prototype.filter` with a predicate that may throw: the first
throwing element aborts the whole call. -/
def filterE (p : α → Except JsError Bool) : List α → Except JsError (List α)
  | [] => Except.ok []
  | a :: rest => do
    let keep ← p a
    let tail ← filterE p rest
    pure (if keep then a :: tail else tail)

/-! ## Structure analysis, Helpers variant
(src/backend/helpers/aiAnalyzer.js, `analyzeStructure`, lines 50-92)

The prompt construction and the model call are external; the model is
entered at `const responseText = response.text` with the reply text, the
number of sections (the only use the post-processing makes of `sections`),
and a `parse` oracle standing for `JSON.parse`. -/

/-- The safe default this variant returns when no JSON span is found
(aiAnalyzer.js, lines 83-88). -/
def helpersDefault (n : Nat) : JsonObj :=
  [("needsRestructuring", Json.bool false),
   ("currentSectionCount", Json.num n),
   ("restructuringReason", Json.str "No clear structural issues found"),
   ("suggestions", Json.arr [])]

/-- The regex `/\{[\s\S]*\}/`: the (greedy) span from the first opening
brace to the last closing brace, when both exist in that order. -/
def jsonSpan (text : String) : Option String :=
  let s1 := text.data.dropWhile (fun c => !(c = Char.ofNat 123 : Bool))
  match s1 with
  | [] => none
  | _ =>
    let r := s1.reverse.dropWhile (fun c => !(c = Char.ofNat 125 : Bool))
    match r with
    | [] => none
    | _ => some (String.mk r.reverse)

/-- The confidence filter of the Helpers variant (aiAnalyzer.js, lines
64-66): keep `high`/`medium` confidence, drop `keep` actions.  Reading the
fields of a `null` element throws. -/
def helpersConfPred (s : Json) : Except JsError Bool := do
  let conf ← jsGetField s "confidenceLevel"
  let act ← jsGetField s "action"
  pure ((isStrVal conf "high" || isStrVal conf "medium") && !(isStrVal act "keep"))

/-- The suggestion-filter statement of the Helpers variant (aiAnalyzer.js,
lines 63-67): `if (parsed.suggestions) parsed.suggestions =
parsed.suggestions.filter(...)` — a truthy non-array value throws on
`.filter`, a falsy or missing value leaves the object untouched. -/
def helpersFilterStep (parsed : JsonObj) : Except JsError JsonObj :=
  match getField parsed "suggestions" with
  | some (Json.arr xs) =>
    match filterE helpersConfPred xs with
    | Except.error e => Except.error e
    | Except.ok ys => Except.ok (setField parsed "suggestions" (Json.arr ys))
  | some v =>
    if jsTruthy v then Except.error JsError.typeError else Except.ok parsed
  | none => Except.ok parsed

/-- The guard `sections.length <= 7 && parsed.suggestions.length === 0`
(aiAnalyzer.js, line 71): short-circuits when there are more than 7
sections; otherwise the `.length` read throws on a missing or `null`
`suggestions` and compares against 0 elsewhere (`undefined === 0` is
false for values without a length). -/
def helpersCond2 (p1 : JsonObj) (numSections : Nat) : Except JsError Bool :=
  if numSections ≤ 7 then
    match getField p1 "suggestions" with
    | none => Except.error JsError.typeError
    | some Json.null => Except.error JsError.typeError
    | some v => Except.ok (jsLength v = some 0 : Bool)
  else Except.ok false

/-- The guard `!parsed.suggestions || parsed.suggestions.length === 0`
(aiAnalyzer.js, line 76); the short-circuiting `||` never reads `.length`
off a falsy value. -/
def helpersEmptyCheck (p2 : JsonObj) : Bool :=
  match getField p2 "suggestions" with
  | none => true
  | some v => !jsTruthy v || (jsLength v = some 0 : Bool)

/-- `analyzeStructure`, Helpers variant (aiAnalyzer.js, lines 55-92), from
the reply text on.  The surrounding `try`/`catch` logs and rethrows, so a
thrown `TypeError`/`SyntaxError` escapes to the caller (`Except.error`):
extract the JSON span (safe default if none), `JSON.parse` it (the throw
escapes), filter the suggestions, then apply the two `needsRestructuring`
overrides and return the (mutated) parsed object. -/
def helpersAnalyzeStructure (parse : String → Option JsonObj) (text : String)
    (numSections : Nat) : Except JsError JsonObj :=
  match jsonSpan text with
  | none => Except.ok (helpersDefault numSections)
  | some span =>
    match parse span with
    | none => Except.error JsError.parseError
    | some parsed =>
      match helpersFilterStep parsed with
      | Except.error e => Except.error e
      | Except.ok p1 =>
        match helpersCond2 p1 numSections with
        | Except.error e => Except.error e
        | Except.ok cond2 =>
          let p2 := if cond2 then setField p1 "needsRestructuring" (Json.bool false)
            else p1
          if helpersEmptyCheck p2 then
            Except.ok (setField p2 "needsRestructuring" (Json.bool false))
          else Except.ok p2

/-! ## Structure analysis, Part000 variant
(src/unnamed/part_000, `analyzeStructure`, lines 53-125) -/

/-- `buildDefault` (part_000, lines 118-125). -/
def buildDefault (n : Nat) : JsonObj :=
  [("needsRestructuring", Json.bool false),
   ("currentSectionCount", Json.num n),
   ("restructuringReason", Json.str "No structural issues detected"),
   ("suggestions", Json.arr [])]

/-- Validation 2 of the Part000 variant (part_000, lines 84-88): keep only
suggestions whose `affectedSections` is an array of exactly 2 entries. -/
def part000ValidCard (s : Json) : Except JsError Bool := do
  let aff ← jsGetField s "affectedSections"
  pure (match aff with
    | some (Json.arr l) => (l.length = 2 : Bool)
    | _ => false)

/-- Validation 3 (part_000, lines 91-95): every index in range.  Survivors
of validation 2 always carry an array; the JS numeric comparison is
modelled for numbers only (non-numeric entries fail the check; the JS
string-coercion corner is not exercised by any claim). -/
def part000InBounds (n : Nat) (s : Json) : Except JsError Bool := do
  let aff ← jsGetField s "affectedSections"
  pure (match aff with
    | some (Json.arr l) => l.all (fun j => match j with
        | Json.num i => decide (0 ≤ i) && decide (i < (n : Int))
        | _ => false)
    | _ => false)

/-- Rendering of an index for the duplicate key (survivors of the bounds
filter are integer numbers, which JS renders in decimal). -/
def jsNumToString (j : Json) : String :=
  match j with
  | Json.num i => toString i
  | _ => ""

/-- Stable insertion into an ascending list under the string order, as the
default (string-comparing, stable) `Array.prototype.sort` produces. -/
def insertSorted (x : String) : List String → List String
  | [] => [x]
  | y :: rest => if x < y then x :: y :: rest else y :: insertSorted x rest

/-- Sort a list of strings ascending (stable). -/
def sortStrings (l : List String) : List String :=
  l.foldl (fun acc x => insertSorted x acc) []

/-- The duplicate key of validation 4 (part_000, line 100):
`[...s.affectedSections].sort().join('-')`. -/
def part000Key (s : Json) : String :=
  match (match s with
    | Json.obj f => getField f "affectedSections"
    | _ => none) with
  | some (Json.arr l) => String.intercalate "-" (sortStrings (l.map jsNumToString))
  | _ => ""

/-- Validation 4 (part_000, lines 98-104): drop suggestions whose sorted
index pair repeats an earlier kept one. -/
def dedupByKey (seen : List String) : List Json → List Json
  | [] => []
  | s :: rest =>
    let k := part000Key s
    if seen.contains k then dedupByKey seen rest
    else s :: dedupByKey (k :: seen) rest

/-- The validation pipeline of the Part000 variant (part_000, lines 76-110)
on the parsed object: coerce a non-array `suggestions` to `[]`, drop
suggestions without exactly 2 affected sections, drop out-of-range indices,
drop duplicate pairs, and recompute `needsRestructuring` as
`suggestions.length > 0`. -/
def part000Validate (n : Nat) (parsed : JsonObj) : Except JsError JsonObj :=
  let p1 := (match getField parsed "suggestions" with
    | some (Json.arr _) => parsed
    | _ => setField parsed "suggestions" (Json.arr []))
  let xs0 := (match getField p1 "suggestions" with
    | some (Json.arr l) => l
    | _ => [])
  match filterE part000ValidCard xs0 with
  | Except.error e => Except.error e
  | Except.ok xs1 =>
    let p2 := setField p1 "suggestions" (Json.arr xs1)
    match filterE (part000InBounds n) xs1 with
    | Except.error e => Except.error e
    | Except.ok xs2 =>
      let p3 := setField p2 "suggestions" (Json.arr xs2)
      let xs3 := dedupByKey [] xs2
      let p4 := setField p3 "suggestions" (Json.arr xs3)
      Except.ok (setField p4 "needsRestructuring" (Json.bool (decide (0 < xs3.length))))

/-- The body of `analyzeStructure`, Part000 variant (part_000, lines
58-110), before the surrounding catch: clean code fences, extract the JSON
span (safe default if none), parse (the throw is caught outside), coerce a
non-array `suggestions` to `[]`, run validations 2-4, and recompute
`needsRestructuring` as `suggestions.length > 0`. -/
def part000AnalyzeStructureE (parse : String → Option JsonObj) (text : String)
    (n : Nat) : Except JsError JsonObj :=
  match jsonSpan (cleanText text) with
  | none => Except.ok (buildDefault n)
  | some span =>
    match parse span with
    | none => Except.error JsError.parseError
    | some parsed => part000Validate n parsed

/-- `analyzeStructure`, Part000 variant (part_000, lines 10-116): the
`catch` absorbs every thrown error into `buildDefault`, so the function
always returns an analysis object. -/
def part000AnalyzeStructure (parse : String → Option JsonObj) (text : String)
    (n : Nat) : JsonObj :=
  match part000AnalyzeStructureE parse text n with
  | Except.ok o => o
  | Except.error _ => buildDefault n

/-- The number of suggestions an analysis object carries (0 when the field
is missing or not an array). -/
def analysisSuggestionCount (o : JsonObj) : Nat :=
  match getField o "suggestions" with
  | some (Json.arr l) => l.length
  | _ => 0

/-! ## Proposal generation

`generateProposals(sections, linkEvals, structureAnalysis)` consumes the
structured data of the pipeline; the model types its inputs accordingly:
a section record (only its `heading` is read by the generator), the
`LinkEvaluation` records of the link checker, and a structure-analysis
record whose suggestions carry the fields the generator reads.  Optional
fields (`none` = JS `undefined`) reproduce the reply shapes the analyzer
can let through. -/

/-- A document section as the generator sees it. -/
structure Sec where
  heading : String
  deriving DecidableEq, Repr

/-- One structure suggestion handed to the generator. -/
structure Suggestion where
  action : String
  affectedSections : Option (List Int)
  newHeading : Option String
  rationale : Option String
  confidenceLevel : Option String
  deriving DecidableEq, Repr

/-- The structure-analysis record handed to the generator. -/
structure StructureAnalysisIn where
  needsRestructuring : Bool
  suggestions : List Suggestion
  deriving DecidableEq, Repr

/-- A generated proposal record (the union of the fields the two proposal
shapes carry; fields a shape does not set are `none`/`[]`). -/
structure Proposal where
  id : String
  type : String
  action : Option String
  title : String
  description : String
  affectedLinks : List LinkEvaluation
  affectedSections : Option (List Int)
  newHeading : Option String
  rationale : Option String
  approved : Bool
  deriving DecidableEq, Repr

/-- JS truthiness of an optional string (`undefined` and `''` are falsy). -/
def optStrTruthy (o : Option String) : Bool :=
  match o with
  | some s2 => !(s2 = "" : Bool)
  | none => false

/-- Render of an optional string inside a template literal (`undefined`
prints as the word `undefined`). -/
def renderOptStr (o : Option String) : String :=
  match o with
  | some s2 => s2
  | none => "undefined"

/-- `action.charAt(0).toUpperCase() + action.slice(1)` (the actions are
ASCII words). -/
def capitalize (s : String) : String :=
  match s.data with
  | [] => ""
  | c :: rest =>
    String.mk ((if 'a' ≤ c ∧ c ≤ 'z' then Char.ofNat (c.toNat - 32) else c) :: rest)

/-- The broken links of a run: `linkEvals.filter(l => !l.working)`. -/
def brokenOf (linkEvals : List LinkEvaluation) : List LinkEvaluation :=
  linkEvals.filter (fun l => !l.working)

/-- The link-fixes description of the Helpers variant (aiAnalyzer.js, line
107): the noun is always plural. -/
def helpersLinkDescription (n : Nat) : String :=
  "Found " ++ toString n ++
    " broken or inaccessible links that should be updated or removed."

/-- The link-fixes description of the Part000 variant (part_000, line 139):
`link${count > 1 ? 's' : ''}`. -/
def part000LinkDescription (n : Nat) : String :=
  "Found " ++ toString n ++ " broken or inaccessible link" ++
    (if 1 < n then "s" else "") ++ " that should be updated or removed."

/-- The single aggregated link-fixes proposal, Helpers variant
(aiAnalyzer.js, lines 103-111). -/
def helpersLinkProposal (broken : List LinkEvaluation) : Proposal :=
  { id := "proposal-links", type := "link-fixes", action := none,
    title := "Fix Broken Links",
    description := helpersLinkDescription broken.length,
    affectedLinks := broken, affectedSections := none, newHeading := none,
    rationale := some ("Broken links harm user experience and SEO. " ++
      "These links return errors or are unreachable."),
    approved := false }

/-- The single aggregated link-fixes proposal, Part000 variant (part_000,
lines 135-143); identical except for the pluralized description. -/
def part000LinkProposal (broken : List LinkEvaluation) : Proposal :=
  { id := "proposal-links", type := "link-fixes", action := none,
    title := "Fix Broken Links",
    description := part000LinkDescription broken.length,
    affectedLinks := broken, affectedSections := none, newHeading := none,
    rationale := some ("Broken links harm user experience and SEO. " ++
      "These links return errors or are unreachable."),
    approved := false }

/-- `s.affectedSections?.length || 0` summed over the `merge` suggestions
(aiAnalyzer.js, lines 118-120). -/
def mergeAffectedTotal (sugs : List Suggestion) : Nat :=
  (sugs.filter (fun s => (s.action = "merge" : Bool))).foldl
    (fun acc s => acc + (match s.affectedSections with
      | some l => l.length
      | none => 0)) 0

/-- The quoted section name of the Helpers description (aiAnalyzer.js, line
149): `"${sections[i]?.heading || i}"` — the heading when the index is in
range and the heading truthy, the raw index otherwise. -/
def sectionNameQuoted (sections : List Sec) (i : Int) : String :=
  let inner := match (if 0 ≤ i then sections.get? i.toNat else none) with
    | some sec => if sec.heading = "" then toString i else sec.heading
    | none => toString i
  "\"" ++ inner ++ "\""

/-- One structure proposal of the Helpers variant (aiAnalyzer.js, lines
142-154).  Reading `.map` off a missing `affectedSections` (reached when
`newHeading` is falsy) throws. -/
def helpersMkStructProposal (sections : List Sec) (i : Nat) (sug : Suggestion) :
    Except JsError Proposal := do
  let desc ← (if optStrTruthy sug.newHeading then
      Except.ok ("Merge into: \"" ++ renderOptStr sug.newHeading ++ "\"")
    else match sug.affectedSections with
      | none => Except.error JsError.typeError
      | some l => Except.ok (sug.action ++ " section(s): " ++
          String.intercalate ", " (l.map (sectionNameQuoted sections))))
  pure { id := "proposal-structure-" ++ toString i, type := "structure",
         action := some sug.action,
         title := capitalize sug.action ++ " Sections",
         description := desc,
         affectedLinks := [], affectedSections := sug.affectedSections,
         newHeading := sug.newHeading, rationale := sug.rationale,
         approved := false }

/-- The suggestion loop of the Helpers variant (aiAnalyzer.js, lines
130-155): `keep` actions are skipped, `merge` actions read
`affectedSections.length` (throwing when the field is missing) and bulk
merges of more than 2 sections are skipped; `i` indexes the original
suggestion list. -/
def helpersStructAux (sections : List Sec) (i : Nat) :
    List Suggestion → Except JsError (List Proposal)
  | [] => Except.ok []
  | sug :: rest =>
    if sug.action = "keep" then helpersStructAux sections (i + 1) rest
    else if sug.action = "merge" then
      match sug.affectedSections with
      | none => Except.error JsError.typeError
      | some l =>
        if 2 < l.length then helpersStructAux sections (i + 1) rest
        else do
          let p ← helpersMkStructProposal sections i sug
          let ps ← helpersStructAux sections (i + 1) rest
          Except.ok (p :: ps)
    else do
      let p ← helpersMkStructProposal sections i sug
      let ps ← helpersStructAux sections (i + 1) rest
      Except.ok (p :: ps)

/-- The `proposals` array after the link block of the Helpers variant
(aiAnalyzer.js, lines 98-112): the one aggregated link-fixes proposal when
some evaluation is broken, nothing otherwise. -/
def helpersLinkFixProposals (linkEvals : List LinkEvaluation) : List Proposal :=
  if (brokenOf linkEvals).isEmpty then [] else [helpersLinkProposal (brokenOf linkEvals)]

/-- `generateProposals`, Helpers variant (aiAnalyzer.js, lines 96-163).
The aggressiveness guardrail compares `totalAffected / sections.length`
against the literal `0.6`; on the integer counts involved the floating
comparison coincides with the exact rational one, modelled as
`5 * totalAffected > 3 * sections.length` (with the JS corner
`x / 0 = Infinity > 0.6` for `x > 0`, and `0 / 0 = NaN` not `> 0.6`,
both matching). -/
def helpersGenerateProposals (sections : List Sec)
    (linkEvals : List LinkEvaluation) (sa : StructureAnalysisIn) :
    Except JsError (List Proposal) :=
  if sa.needsRestructuring = true ∧ 0 < sa.suggestions.length then
    if 5 * mergeAffectedTotal sa.suggestions > 3 * sections.length then
      Except.ok (helpersLinkFixProposals linkEvals)
    else
      match helpersStructAux sections 0 sa.suggestions with
      | Except.error e => Except.error e
      | Except.ok ps => Except.ok (helpersLinkFixProposals linkEvals ++ ps)
  else Except.ok (helpersLinkFixProposals linkEvals)

/-- The section name of the Part000 descriptions (part_000, lines 152-153):
`sections[idx]?.heading || `Section ${idx}``, where `idx` itself may be the
`undefined` read off a too-short `affectedSections`. -/
def part000SectionName (sections : List Sec) (idx : Option Int) : String :=
  match idx with
  | none => "Section undefined"
  | some i =>
    match (if 0 ≤ i then sections.get? i.toNat else none) with
    | some sec => if sec.heading = "" then "Section " ++ toString i else sec.heading
    | none => "Section " ++ toString i

/-- One structure proposal of the Part000 variant (part_000, lines
155-165), given the suggestion's `affectedSections` array. -/
def part000MkStructProposal (sections : List Sec) (i : Nat) (sug : Suggestion)
    (l : List Int) : Proposal :=
  let nameA := part000SectionName sections (l.get? 0)
  let nameB := part000SectionName sections (l.get? 1)
  { id := "proposal-structure-" ++ toString i, type := "structure",
    action := some sug.action,
    title := if optStrTruthy sug.newHeading then renderOptStr sug.newHeading
      else "Merge: " ++ nameA ++ " + " ++ nameB,
    description := "Merge \"" ++ nameA ++ "\" and \"" ++ nameB ++
      "\" into a single section: \"" ++ renderOptStr sug.newHeading ++ "\"",
    affectedLinks := [], affectedSections := some l,
    newHeading := sug.newHeading, rationale := sug.rationale,
    approved := false }

/-- The suggestion loop of the Part000 variant (part_000, lines 148-166):
every suggestion becomes a proposal; indexing `affectedSections[0]` off a
missing field throws. -/
def part000StructAux (sections : List Sec) (i : Nat) :
    List Suggestion → Except JsError (List Proposal)
  | [] => Except.ok []
  | sug :: rest =>
    match sug.affectedSections with
    | none => Except.error JsError.typeError
    | some l => do
      let ps ← part000StructAux sections (i + 1) rest
      Except.ok (part000MkStructProposal sections i sug l :: ps)

/-- The `proposals` array after the link block of the Part000 variant
(part_000, lines 130-144). -/
def part000LinkFixProposals (linkEvals : List LinkEvaluation) : List Proposal :=
  if (brokenOf linkEvals).isEmpty then [] else [part000LinkProposal (brokenOf linkEvals)]

/-- `generateProposals`, Part000 variant (part_000, lines 128-176): the
link-fixes proposal, then one structure proposal per suggestion (no
guardrail — the validation lives in this variant's `analyzeStructure`). -/
def part000GenerateProposals (sections : List Sec)
    (linkEvals : List LinkEvaluation) (sa : StructureAnalysisIn) :
    Except JsError (List Proposal) :=
  if sa.needsRestructuring = true ∧ 0 < sa.suggestions.length then
    match part000StructAux sections 0 sa.suggestions with
    | Except.error e => Except.error e
    | Except.ok ps => Except.ok (part000LinkFixProposals linkEvals ++ ps)
  else Except.ok (part000LinkFixProposals linkEvals)

/-! ## Field-access lemmas for the JS object model -/

theorem getField_filterNe (o : JsonObj) (k q : String) (h : ¬ q = k) :
    getField (o.filter (fun p => !(p.1 = k : Bool))) q = getField o q := by
  induction o with
  | nil => rfl
  | cons p rest ih =>
    by_cases hk : p.1 = k
    · have hkq : ¬ k = q := fun he => h he.symm
      have hfilter : List.filter (fun p => !(p.1 = k : Bool)) (p :: rest) =
          List.filter (fun p => !(p.1 = k : Bool)) rest := by
        simp [List.filter_cons, hk]
      rw [hfilter, ih]
      have hpq : ¬ p.1 = q := by
        rw [hk]
        exact hkq
      simp [getField, hpq]
    · have hfilter : List.filter (fun p => !(p.1 = k : Bool)) (p :: rest) =
          p :: List.filter (fun p => !(p.1 = k : Bool)) rest := by
        simp [List.filter_cons, hk]
      rw [hfilter]
      by_cases hq : p.1 = q <;> simp [getField, hq, ih]

theorem getField_setField_same (o : JsonObj) (k : String) (v : Json) :
    getField (setField o k v) k = some v := by
  simp [setField, getField]

theorem getField_setField_ne (o : JsonObj) (k q : String) (v : Json) (h : ¬ q = k) :
    getField (setField o k v) q = getField o q := by
  have hk : ¬ k = q := fun he => h he.symm
  simp only [setField, getField, if_neg hk]
  exact getField_filterNe o k q h

/-! ## Theorems for the proposal generator and analyzer claims -/

/-- C2.  When the total number of sections referenced by merge-type
suggestions exceeds the 60% guardrail fraction of `sections.length` (the
exact rational form of the JS `totalAffected / sections.length > 0.6`),
the Helpers `generateProposals` returns exactly its link-fixes output: the
aggregated broken-link proposal when some evaluation has `working = false`
and nothing at all otherwise — in particular zero proposals of type
`structure`. -/
theorem c2_aggressiveness_guardrail (sections : List Sec)
    (linkEvals : List LinkEvaluation) (sa : StructureAnalysisIn)
    (hr : 5 * mergeAffectedTotal sa.suggestions > 3 * sections.length) :
    helpersGenerateProposals sections linkEvals sa =
      Except.ok (helpersLinkFixProposals linkEvals) := by
  unfold helpersGenerateProposals
  by_cases hns : sa.needsRestructuring = true ∧ 0 < sa.suggestions.length
  · rw [if_pos hns, if_pos hr]
  · rw [if_neg hns]

/-- C2 witness: three sections, one broken link, and a single high-confidence
merge touching all three sections (ratio 1 > 0.6): the output is exactly the
link-fixes proposal. -/
theorem c2_aggressiveness_guardrail_witness :
    helpersGenerateProposals [⟨"A"⟩, ⟨"B"⟩, ⟨"C"⟩]
      [⟨"l1", "https://broken.com", "t", "", 404, false, some "Page not found", "HEAD"⟩]
      ⟨true, [⟨"merge", some [0, 1, 2], some "Big", some "r", some "high"⟩]⟩ =
      Except.ok [helpersLinkProposal
        [⟨"l1", "https://broken.com", "t", "", 404, false, some "Page not found", "HEAD"⟩]] := by
  have h := c2_aggressiveness_guardrail [⟨"A"⟩, ⟨"B"⟩, ⟨"C"⟩]
    [⟨"l1", "https://broken.com", "t", "", 404, false, some "Page not found", "HEAD"⟩]
    ⟨true, [⟨"merge", some [0, 1, 2], some "Big", some "r", some "high"⟩]⟩ (by decide)
  rw [h]
  rfl

/-- C3 counterexample.  The claim says an unparseable reply is never
surfaced as an error.  In the Helpers variant a reply that does contain a
balanced brace span which then fails `JSON.parse` (the oracle returns
`none`, as `JSON.parse` does on this text) is rethrown by the catch block:
the call errors instead of returning the safe default. -/
theorem c3_parse_failure_counterexample :
    jsonSpan "\x7bnot valid json\x7d" = some "\x7bnot valid json\x7d" ∧
    helpersAnalyzeStructure (fun _ => none) "\x7bnot valid json\x7d" 3 =
      Except.error JsError.parseError :=
  ⟨rfl, rfl⟩

/-- C3 amended.  Both variants return their safe default when no balanced
brace span is found; when a span is found but fails to parse, the Part000
variant still absorbs the error into its safe default, while the Helpers
variant raises it to the caller. -/
theorem c3_unparseable_reply_amended :
    (∀ (parse : String → Option JsonObj) (n : Nat) (text : String),
      jsonSpan text = none →
      helpersAnalyzeStructure parse text n = Except.ok (helpersDefault n)) ∧
    (∀ (parse : String → Option JsonObj) (n : Nat) (text span : String),
      jsonSpan text = some span → parse span = none →
      helpersAnalyzeStructure parse text n = Except.error JsError.parseError) ∧
    (∀ (parse : String → Option JsonObj) (n : Nat) (text : String),
      jsonSpan (cleanText text) = none →
      part000AnalyzeStructure parse text n = buildDefault n) ∧
    (∀ (parse : String → Option JsonObj) (n : Nat) (text span : String),
      jsonSpan (cleanText text) = some span → parse span = none →
      part000AnalyzeStructure parse text n = buildDefault n) := by
  refine ⟨?_, ?_, ?_, ?_⟩
  · intro parse n text hspan
    unfold helpersAnalyzeStructure
    rw [hspan]
  · intro parse n text span hspan hparse
    unfold helpersAnalyzeStructure
    rw [hspan]
    dsimp only
    rw [hparse]
  · intro parse n text hspan
    unfold part000AnalyzeStructure part000AnalyzeStructureE
    rw [hspan]
  · intro parse n text span hspan hparse
    unfold part000AnalyzeStructure part000AnalyzeStructureE
    rw [hspan]
    dsimp only
    rw [hparse]

/-- C3 amended witness: a reply with no braces gets the Helpers safe
default; a brace span that fails to parse gets the Part000 safe default. -/
theorem c3_unparseable_reply_amended_witness :
    helpersAnalyzeStructure (fun _ => none) "no json here" 3 =
      Except.ok (helpersDefault 3) ∧
    part000AnalyzeStructure (fun _ => none) "\x7bbad\x7d" 3 = buildDefault 3 :=
  ⟨c3_unparseable_reply_amended.1 (fun _ => none) 3 "no json here" rfl,
   c3_unparseable_reply_amended.2.2.2 (fun _ => none) 3 "\x7bbad\x7d" "\x7bbad\x7d" rfl rfl⟩

/-- C7.  The claim (matching the spec and the Part000 variant) says a
parsed reply without a `suggestions` array is treated as empty and returns
normally.  The Part000 variant does exactly that, but the Helpers variant
reads `parsed.suggestions.length` unguarded on the 7-or-fewer-sections
path (aiAnalyzer.js, line 71) — one line after its own `if
(parsed.suggestions)` guard — so a reply like
`{"needsRestructuring": false}` with 3 sections makes it throw a
`TypeError`, which the catch rethrows. -/
theorem c7_missing_suggestions_crash :
    helpersAnalyzeStructure (fun _ => some [("needsRestructuring", Json.bool false)])
      "\x7b\"needsRestructuring\": false\x7d" 3 = Except.error JsError.typeError ∧
    part000AnalyzeStructure (fun _ => some [("needsRestructuring", Json.bool false)])
      "\x7b\"needsRestructuring\": false\x7d" 3 =
      [("needsRestructuring", Json.bool false), ("suggestions", Json.arr [])] :=
  ⟨rfl, rfl⟩

/-- C8 counterexample.  The claim requires the link-fixes description to
pluralize its count.  With exactly one broken link the Helpers variant still
writes the plural "links" (as its test suite also expects), not the singular
form the Part000 variant produces. -/
theorem c8_link_fixes_pluralization_counterexample :
    helpersGenerateProposals []
      [⟨"l1", "https://broken.com", "t", "", 404, false, some "Page not found", "HEAD"⟩]
      ⟨false, []⟩ =
      Except.ok [helpersLinkProposal
        [⟨"l1", "https://broken.com", "t", "", 404, false, some "Page not found", "HEAD"⟩]] ∧
    (helpersLinkProposal
        [⟨"l1", "https://broken.com", "t", "", 404, false, some "Page not found", "HEAD"⟩]).description =
      "Found 1 broken or inaccessible links that should be updated or removed." ∧
    ¬ (helpersLinkProposal
        [⟨"l1", "https://broken.com", "t", "", 404, false, some "Page not found", "HEAD"⟩]).description =
      part000LinkDescription 1 :=
  ⟨rfl, rfl, by decide⟩

/-- Every proposal the Part000 suggestion loop emits is of type
`structure`, and under suggestions that all carry an `affectedSections`
sequence the loop cannot throw. -/
theorem part000StructAux_ok (sections : List Sec) (i : Nat)
    (sugs : List Suggestion) (hwf : ∀ s ∈ sugs, ¬ s.affectedSections = none) :
    ∃ sps, part000StructAux sections i sugs = Except.ok sps ∧
      ∀ p ∈ sps, p.type = "structure" := by
  induction sugs generalizing i with
  | nil => exact ⟨[], rfl, by simp⟩
  | cons sug rest ih =>
    cases haff : sug.affectedSections with
    | none => exact absurd haff (hwf sug (by simp))
    | some l =>
      obtain ⟨sps, hok, hall⟩ := ih (i + 1) (fun s hs => hwf s (List.mem_cons_of_mem sug hs))
      refine ⟨part000MkStructProposal sections i sug l :: sps, ?_, ?_⟩
      · unfold part000StructAux
        rw [haff, hok]
        rfl
      · intro p hp
        rcases List.mem_cons.mp hp with hp | hp
        · rw [hp]
          rfl
        · exact hall p hp

/-- C8 amended.  For inputs whose suggestions each carry an
`affectedSections` sequence (which the Part000 analyzer validation
guarantees for the pipeline), the Part000 `generateProposals` succeeds, and
its link-fixes proposals are exactly one proposal — with id
`proposal-links`, `affectedLinks` the evaluations with `working = false`,
and the correctly pluralized count description — when some evaluation is
broken, and none otherwise.  (The Helpers variant differs only in its
always-plural description, as the counterexample records.) -/
theorem c8_link_fixes_amended (sections : List Sec)
    (linkEvals : List LinkEvaluation) (sa : StructureAnalysisIn)
    (hwf : ∀ s ∈ sa.suggestions, ¬ s.affectedSections = none) :
    ∃ ps, part000GenerateProposals sections linkEvals sa = Except.ok ps ∧
      ps.filter (fun p => (p.type = "link-fixes" : Bool)) =
        (if (brokenOf linkEvals).isEmpty then []
          else [part000LinkProposal (brokenOf linkEvals)]) ∧
      (part000LinkProposal (brokenOf linkEvals)).id = "proposal-links" ∧
      (part000LinkProposal (brokenOf linkEvals)).affectedLinks = brokenOf linkEvals ∧
      (part000LinkProposal (brokenOf linkEvals)).description =
        part000LinkDescription (brokenOf linkEvals).length := by
  have hbase : (part000LinkFixProposals linkEvals).filter
      (fun p => (p.type = "link-fixes" : Bool)) =
      (if (brokenOf linkEvals).isEmpty then []
        else [part000LinkProposal (brokenOf linkEvals)]) := by
    unfold part000LinkFixProposals
    by_cases hb : (brokenOf linkEvals).isEmpty
    · rw [if_pos hb]
      rfl
    · rw [if_neg hb]
      rfl
  unfold part000GenerateProposals
  by_cases hns : sa.needsRestructuring = true ∧ 0 < sa.suggestions.length
  · rw [if_pos hns]
    obtain ⟨sps, hok, hall⟩ := part000StructAux_ok sections 0 sa.suggestions hwf
    rw [hok]
    refine ⟨part000LinkFixProposals linkEvals ++ sps, rfl, ?_, rfl, rfl, rfl⟩
    rw [List.filter_append]
    have hnone : sps.filter (fun p => (p.type = "link-fixes" : Bool)) = [] := by
      rw [List.filter_eq_nil_iff]
      intro p hp
      rw [hall p hp]
      decide
    rw [hnone, List.append_nil, hbase]
  · rw [if_neg hns]
    exact ⟨part000LinkFixProposals linkEvals, rfl, hbase, rfl, rfl, rfl⟩

/-- C8 amended witness: one broken link and one well-formed merge
suggestion — the link-fixes proposals are exactly the one aggregated
proposal with the singular description. -/
theorem c8_link_fixes_amended_witness :
    ∃ ps, part000GenerateProposals [⟨"A"⟩, ⟨"B"⟩]
        [⟨"l1", "https://broken.com", "t", "", 404, false, some "Page not found", "HEAD"⟩]
        ⟨true, [⟨"merge", some [0, 1], some "AB", some "r", none⟩]⟩ = Except.ok ps ∧
      ps.filter (fun p => (p.type = "link-fixes" : Bool)) =
        (if (brokenOf [⟨"l1", "https://broken.com", "t", "", 404, false,
            some "Page not found", "HEAD"⟩]).isEmpty then []
          else [part000LinkProposal (brokenOf [⟨"l1", "https://broken.com", "t", "", 404,
            false, some "Page not found", "HEAD"⟩])]) ∧
      (part000LinkProposal (brokenOf [⟨"l1", "https://broken.com", "t", "", 404, false,
          some "Page not found", "HEAD"⟩])).id = "proposal-links" ∧
      (part000LinkProposal (brokenOf [⟨"l1", "https://broken.com", "t", "", 404, false,
          some "Page not found", "HEAD"⟩])).affectedLinks =
        brokenOf [⟨"l1", "https://broken.com", "t", "", 404, false,
          some "Page not found", "HEAD"⟩] ∧
      (part000LinkProposal (brokenOf [⟨"l1", "https://broken.com", "t", "", 404, false,
          some "Page not found", "HEAD"⟩])).description =
        part000LinkDescription (brokenOf [⟨"l1", "https://broken.com", "t", "", 404, false,
          some "Page not found", "HEAD"⟩]).length :=
  c8_link_fixes_amended [⟨"A"⟩, ⟨"B"⟩]
    [⟨"l1", "https://broken.com", "t", "", 404, false, some "Page not found", "HEAD"⟩]
    ⟨true, [⟨"merge", some [0, 1], some "AB", some "r", none⟩]⟩ (by decide)

/-- The suggestion count of an object whose `suggestions` were just set to
an array, after a further write to another key. -/
theorem analysisSuggestionCount_set (p : JsonObj) (xs : List Json) (b : Json) :
    analysisSuggestionCount
      (setField (setField p "suggestions" (Json.arr xs)) "needsRestructuring" b) =
      xs.length := by
  unfold analysisSuggestionCount
  rw [getField_setField_ne _ _ _ _ (by decide), getField_setField_same]

/-- A successful Part000 validation always leaves `needsRestructuring`
equal to the emptiness test of the validated suggestion list. -/
theorem part000Validate_needs (n : Nat) (parsed o : JsonObj)
    (h : part000Validate n parsed = Except.ok o) :
    getField o "needsRestructuring" =
      some (Json.bool (decide (0 < analysisSuggestionCount o))) := by
  unfold part000Validate at h
  dsimp only at h
  split at h
  · exact absurd h (by simp)
  · split at h
    · exact absurd h (by simp)
    · have h2 := Except.ok.inj h
      subst h2
      rw [getField_setField_same, analysisSuggestionCount_set]

/-- Every successful result of the Part000 analyzer body satisfies the
`needsRestructuring` recomputation invariant. -/
theorem part000AnalyzeStructureE_needs (parse : String → Option JsonObj)
    (text : String) (n : Nat) (o : JsonObj)
    (h : part000AnalyzeStructureE parse text n = Except.ok o) :
    getField o "needsRestructuring" =
      some (Json.bool (decide (0 < analysisSuggestionCount o))) := by
  unfold part000AnalyzeStructureE at h
  split at h
  · have h2 := Except.ok.inj h
    subst h2
    rfl
  · split at h
    · exact absurd h (by simp)
    · exact part000Validate_needs n _ o h

/-- A successful Helpers filter step leaves `suggestions` either a (filtered)
array or the original falsy/missing value. -/
theorem helpersFilterStep_char (parsed p1 : JsonObj)
    (h : helpersFilterStep parsed = Except.ok p1) :
    (∃ ys : List Json, getField p1 "suggestions" = some (Json.arr ys)) ∨
    (p1 = parsed ∧ ∀ v, getField p1 "suggestions" = some v → jsTruthy v = false) := by
  unfold helpersFilterStep at h
  cases hgs : getField parsed "suggestions" with
  | none =>
    rw [hgs] at h
    dsimp only at h
    have h2 := Except.ok.inj h
    subst h2
    right
    refine ⟨rfl, ?_⟩
    intro v hv
    rw [hgs] at hv
    exact absurd hv (by simp)
  | some v =>
    rw [hgs] at h
    cases v with
    | arr xs =>
      dsimp only at h
      cases hfe : filterE helpersConfPred xs with
      | error e =>
        rw [hfe] at h
        exact absurd h (by simp)
      | ok ys =>
        rw [hfe] at h
        dsimp only at h
        have h2 := Except.ok.inj h
        subst h2
        exact Or.inl ⟨ys, getField_setField_same _ _ _⟩
    | null =>
      dsimp only [jsTruthy] at h
      have h2 := Except.ok.inj h
      subst h2
      refine Or.inr ⟨rfl, ?_⟩
      intro v hv
      rw [hgs] at hv
      have h3 := Option.some.inj hv
      subst h3
      rfl
    | bool b =>
      dsimp only [jsTruthy] at h
      by_cases hb : b = true
      · subst hb
        exact absurd h (by simp)
      · rw [if_neg hb] at h
        have h2 := Except.ok.inj h
        subst h2
        refine Or.inr ⟨rfl, ?_⟩
        intro v hv
        rw [hgs] at hv
        have h3 := Option.some.inj hv
        subst h3
        simpa [jsTruthy] using hb
    | num m =>
      dsimp only [jsTruthy] at h
      by_cases hm : (m = 0 : Bool) = true
      · rw [hm] at h
        have h2 := Except.ok.inj h
        subst h2
        refine Or.inr ⟨rfl, ?_⟩
        intro v hv
        rw [hgs] at hv
        have h3 := Option.some.inj hv
        subst h3
        simpa [jsTruthy] using hm
      · have hm2 : (!(m = 0 : Bool)) = true := by
          simpa using hm
        rw [hm2] at h
        exact absurd h (by simp)
    | str s2 =>
      dsimp only [jsTruthy] at h
      by_cases hs : (s2 = "" : Bool) = true
      · rw [hs] at h
        have h2 := Except.ok.inj h
        subst h2
        refine Or.inr ⟨rfl, ?_⟩
        intro v hv
        rw [hgs] at hv
        have h3 := Option.some.inj hv
        subst h3
        simpa [jsTruthy] using hs
      · have hs2 : (!(s2 = "" : Bool)) = true := by
          simpa using hs
        rw [hs2] at h
        exact absurd h (by simp)
    | obj f =>
      dsimp only [jsTruthy] at h
      exact absurd h (by simp)

/-- C6 counterexample.  A reply whose JSON reports `needsRestructuring:
false` next to one high-confidence merge suggestion passes the Helpers
filter with one validated suggestion, yet the returned flag stays `false`:
the Helpers variant never recomputes the flag to `true` from a non-empty
list, contradicting the claim. -/
theorem c6_needs_restructuring_counterexample :
    (helpersAnalyzeStructure
      (fun _ => some [("needsRestructuring", Json.bool false),
        ("suggestions", Json.arr [Json.obj [("action", Json.str "merge"),
          ("confidenceLevel", Json.str "high"),
          ("affectedSections", Json.arr [Json.num 0, Json.num 1])]])])
      "\x7b\"needsRestructuring\":false,\"suggestions\":[\x7b\"action\":\"merge\",\"confidenceLevel\":\"high\",\"affectedSections\":[0,1]\x7d]\x7d"
      3).map analysisSuggestionCount = Except.ok 1 ∧
    (helpersAnalyzeStructure
      (fun _ => some [("needsRestructuring", Json.bool false),
        ("suggestions", Json.arr [Json.obj [("action", Json.str "merge"),
          ("confidenceLevel", Json.str "high"),
          ("affectedSections", Json.arr [Json.num 0, Json.num 1])]])])
      "\x7b\"needsRestructuring\":false,\"suggestions\":[\x7b\"action\":\"merge\",\"confidenceLevel\":\"high\",\"affectedSections\":[0,1]\x7d]\x7d"
      3).map (fun o => getField o "needsRestructuring") =
      Except.ok (some (Json.bool false)) :=
  ⟨rfl, rfl⟩

/-- C6 amended.  The Part000 variant always returns `needsRestructuring`
recomputed as `suggestions.length > 0` (in both directions, whatever the
model reported); the Helpers variant only forces the flag to `false` when
the validated list is empty — a non-empty list does not force it to
`true`. -/
theorem c6_needs_restructuring_amended :
    (∀ (parse : String → Option JsonObj) (text : String) (n : Nat),
      getField (part000AnalyzeStructure parse text n) "needsRestructuring" =
        some (Json.bool (decide (0 <
          analysisSuggestionCount (part000AnalyzeStructure parse text n))))) ∧
    (∀ (parse : String → Option JsonObj) (text : String) (n : Nat) (o : JsonObj),
      helpersAnalyzeStructure parse text n = Except.ok o →
      analysisSuggestionCount o = 0 →
      getField o "needsRestructuring" = some (Json.bool false)) := by
  constructor
  · intro parse text n
    cases hE : part000AnalyzeStructureE parse text n with
    | error e =>
      unfold part000AnalyzeStructure
      rw [hE]
      rfl
    | ok o =>
      unfold part000AnalyzeStructure
      rw [hE]
      exact part000AnalyzeStructureE_needs parse text n o hE
  · intro parse text n o h hcount
    unfold helpersAnalyzeStructure at h
    cases hspan : jsonSpan text with
    | none =>
      rw [hspan] at h
      dsimp only at h
      have h2 := Except.ok.inj h
      subst h2
      rfl
    | some span =>
      rw [hspan] at h
      dsimp only at h
      cases hp : parse span with
      | none =>
        rw [hp] at h
        exact absurd h (by simp)
      | some parsed =>
        rw [hp] at h
        dsimp only at h
        cases hfs : helpersFilterStep parsed with
        | error e =>
          rw [hfs] at h
          exact absurd h (by simp)
        | ok p1 =>
          rw [hfs] at h
          dsimp only at h
          cases hc2 : helpersCond2 p1 n with
          | error e =>
            rw [hc2] at h
            exact absurd h (by simp)
          | ok cond2 =>
            rw [hc2] at h
            dsimp only at h
            have hps : getField (if cond2 = true then
                setField p1 "needsRestructuring" (Json.bool false) else p1)
                "suggestions" = getField p1 "suggestions" := by
              by_cases hcv : cond2 = true
              · rw [if_pos hcv]
                exact getField_setField_ne _ _ _ _ (by decide)
              · rw [if_neg hcv]
            by_cases he : helpersEmptyCheck (if cond2 = true then
                setField p1 "needsRestructuring" (Json.bool false) else p1) = true
            · rw [if_pos he] at h
              have h2 := Except.ok.inj h
              subst h2
              rw [getField_setField_same]
            · rw [if_neg he] at h
              have h2 := Except.ok.inj h
              subst h2
              exfalso
              rcases helpersFilterStep_char parsed p1 hfs with ⟨ys, hgs1⟩ | ⟨hp1, hfalsy⟩
              · have hys : ¬ ys.length = 0 := by
                  intro hlen
                  apply he
                  unfold helpersEmptyCheck
                  rw [hps, hgs1]
                  simp [jsTruthy, jsLength, hlen]
                apply hys
                have hc : analysisSuggestionCount (if cond2 = true then
                    setField p1 "needsRestructuring" (Json.bool false) else p1) =
                    ys.length := by
                  unfold analysisSuggestionCount
                  rw [hps, hgs1]
                rw [hc] at hcount
                exact hcount
              · apply he
                unfold helpersEmptyCheck
                rw [hps]
                cases hv : getField p1 "suggestions" with
                | none => rfl
                | some v =>
                  dsimp only
                  rw [hfalsy v hv]
                  rfl

/-- C6 amended witness: a no-braces reply with 3 sections gives the Helpers
safe default, whose empty suggestion list indeed comes with
`needsRestructuring = false`; the Part000 variant on the same input
likewise satisfies the recomputation equation. -/
theorem c6_needs_restructuring_amended_witness :
    getField (part000AnalyzeStructure (fun _ => none) "plain reply" 3)
      "needsRestructuring" =
      some (Json.bool (decide (0 < analysisSuggestionCount
        (part000AnalyzeStructure (fun _ => none) "plain reply" 3)))) ∧
    getField (helpersDefault 3) "needsRestructuring" = some (Json.bool false) :=
  ⟨c6_needs_restructuring_amended.1 (fun _ => none) "plain reply" 3,
   c6_needs_restructuring_amended.2 (fun _ => none) "plain reply" 3
     (helpersDefault 3) rfl rfl⟩

/-! ## Whitespace lemmas for the code-fence stripping -/

theorem dropWhile_head_false (p : Char → Bool) (l : List Char) (c : Char)
    (cs : List Char) (h : l.dropWhile p = c :: cs) : p c = false := by
  induction l with
  | nil => exact absurd h (by simp)
  | cons a t ih =>
    rw [List.dropWhile_cons] at h
    by_cases hpa : p a = true
    · rw [if_pos hpa] at h
      exact ih h
    · rw [if_neg hpa] at h
      have hc := (List.cons.inj h).1
      subst hc
      simpa using hpa

theorem dropWhile_self (p : Char → Bool) (l : List Char) :
    (l.dropWhile p).dropWhile p = l.dropWhile p := by
  cases hd : l.dropWhile p with
  | nil => rfl
  | cons c cs =>
    rw [List.dropWhile_cons, if_neg]
    rw [dropWhile_head_false p l c cs hd]
    simp

theorem dropTrailingWs_idem (x : List Char) :
    dropTrailingWs (dropTrailingWs x) = dropTrailingWs x := by
  unfold dropTrailingWs
  rw [List.reverse_reverse, dropWhile_self]

theorem dropLeadingWs_dropTrailingWs (c : Char) (cs : List Char)
    (hc : jsWs c = false) :
    dropLeadingWs (dropTrailingWs (c :: cs)) = dropTrailingWs (c :: cs) := by
  unfold dropTrailingWs dropLeadingWs
  rw [show (c :: cs).reverse = cs.reverse ++ [c] by simp]
  rw [List.dropWhile_append]
  by_cases he : (cs.reverse.dropWhile jsWs).isEmpty
  · rw [if_pos he]
    rw [show List.dropWhile jsWs [c] = [c] by simp [List.dropWhile_cons, hc]]
    simp [List.dropWhile_cons, hc]
  · rw [if_neg he]
    rw [List.reverse_append]
    simp [List.dropWhile_cons, hc]

theorem fence_not_prefix_append (c : Char) (cs : List Char)
    (hfence : fence.isPrefixOf (c :: cs) = false) :
    fence.isPrefixOf ((c :: cs) ++ '\n' :: fence) = false := by
  cases cs with
  | nil =>
    simp only [fence, List.cons_append, List.nil_append, List.isPrefixOf] at hfence ⊢
    simp only [show (btick == '\n') = false by decide]
    simp
  | cons d ds =>
    cases ds with
    | nil =>
      simp only [fence, List.cons_append, List.nil_append, List.isPrefixOf] at hfence ⊢
      simp only [show (btick == '\n') = false by decide]
      simp
    | cons e es =>
      simp only [fence, List.cons_append, List.isPrefixOf] at hfence ⊢
      simpa using hfence

/-- The three replaces and the trim of the Helpers post-processing, applied
to a reply that wraps `inner` in an ```` ```html ```` fence, return the
trimmed inner content — provided the (trimmed) inner content does not
itself start with a fence. -/
theorem postprocess_fenced_chars (inner : List Char)
    (h : fence.isPrefixOf (inner.dropWhile jsWs) = false) :
    jsTrimL (stripTrailFence (stripPlainFence (stripWordFence "html".data
      (btick :: btick :: btick :: 'h' :: 't' :: 'm' :: 'l' :: '\n' ::
        (inner ++ '\n' :: fence))))) = jsTrimL inner := by
  have hstep1 : stripWordFence "html".data
      (btick :: btick :: btick :: 'h' :: 't' :: 'm' :: 'l' :: '\n' ::
        (inner ++ '\n' :: fence)) =
      List.dropWhile jsWs (inner ++ '\n' :: fence) := by
    unfold stripWordFence
    have hcond : List.map lowerAscii (List.take (fence ++ "html".data).length
        (btick :: btick :: btick :: 'h' :: 't' :: 'm' :: 'l' :: '\n' ::
          (inner ++ '\n' :: fence))) = fence ++ "html".data := by
      show List.map lowerAscii [btick, btick, btick, 'h', 't', 'm', 'l'] =
        fence ++ "html".data
      decide
    rw [if_pos hcond]
    show List.dropWhile jsWs ('\n' :: (inner ++ '\n' :: fence)) = _
    rw [List.dropWhile_cons, if_pos (by decide)]
  rw [hstep1, List.dropWhile_append]
  cases hcore : inner.dropWhile jsWs with
  | nil =>
    rw [if_pos (by simp)]
    have hrhs : jsTrimL inner = [] := by
      unfold jsTrimL dropLeadingWs dropTrailingWs
      rw [hcore]
      rfl
    rw [hrhs]
    decide
  | cons c cs =>
    rw [if_neg (by simp)]
    rw [hcore] at h
    have hc : jsWs c = false := dropWhile_head_false jsWs inner c cs hcore
    have hplain : stripPlainFence ((c :: cs) ++ '\n' :: fence) =
        (c :: cs) ++ '\n' :: fence := by
      unfold stripPlainFence
      rw [fence_not_prefix_append c cs h]
      rfl
    rw [hplain]
    have htrail : stripTrailFence ((c :: cs) ++ '\n' :: fence) =
        dropTrailingWs (c :: cs) := by
      unfold stripTrailFence
      rw [show ((c :: cs) ++ '\n' :: fence).reverse =
        btick :: btick :: btick :: '\n' :: (c :: cs).reverse by simp [fence]]
      rw [if_pos (by simp [fence, List.isPrefixOf])]
      show (List.dropWhile jsWs ('\n' :: (c :: cs).reverse)).reverse = _
      rw [List.dropWhile_cons, if_pos (by decide)]
      rfl
    rw [htrail]
    have hrhs : jsTrimL inner = dropTrailingWs (c :: cs) := by
      unfold jsTrimL dropLeadingWs
      rw [hcore]
    rw [hrhs]
    cases ht : dropTrailingWs (c :: cs) with
    | nil =>
      rw [show jsTrimL [] = [] by rfl]
    | cons d ds =>
      rw [← ht]
      unfold jsTrimL
      rw [dropLeadingWs_dropTrailingWs c cs hc, dropTrailingWs_idem]

/-- C9 counterexample.  The claim says the inner content of a fenced reply
is preserved byte-for-byte.  For inner content carrying leading whitespace
the `\s*` in the strip regexes (and the final `trim()`) eat it: the result
is the trimmed inner content, not the inner content itself. -/
theorem c9_fence_strip_counterexample :
    postprocessReply ("```html\n" ++ "  <p>hi</p>" ++ "\n```") = "<p>hi</p>" ∧
    ¬ ("<p>hi</p>" : String) = "  <p>hi</p>" :=
  ⟨rfl, by decide⟩

/-- C9 amended.  For every inner content whose trimmed form does not itself
start with a code fence, `applyChanges` returns the fenced reply with the
fence markers stripped and the inner content preserved up to trimming of
leading and trailing whitespace (`inner.trim()`), not byte-for-byte. -/
theorem c9_fence_strip_amended (inner : String)
    (h : fence.isPrefixOf (dropLeadingWs inner.data) = false) :
    postprocessReply ("```html\n" ++ inner ++ "\n```") =
      String.mk (jsTrimL inner.data) := by
  unfold postprocessReply
  have hdata : ("```html\n" ++ inner ++ "\n```").data =
      btick :: btick :: btick :: 'h' :: 't' :: 'm' :: 'l' :: '\n' ::
        (inner.data ++ '\n' :: fence) := by
    simp [fence, btick, String.data_append]
  rw [hdata]
  rw [postprocess_fenced_chars inner.data h]

/-- C9 amended witness: a reply fencing the single word `hi` strips down to
exactly `hi`. -/
theorem c9_fence_strip_amended_witness :
    postprocessReply ("```html\n" ++ "hi" ++ "\n```") =
      String.mk (jsTrimL "hi".data) :=
  c9_fence_strip_amended "hi" (by decide)

end BlogRefresh
